import Mathlib

/-!
Verification development for the baccarat_bot core engine.

The Python modules under `src/core/` are embedded shallowly:
pure functions become Lean functions over `ℚ` (Python floats are modelled
as exact rationals), stateful classes become explicit state records with
transition functions, and Python runtime errors (`ZeroDivisionError`,
`NameError`) become `Except Unit` failures.  Wall-clock time and the
process-global logger are not modelled; neither influences the data flow
verified here.
-/

/-- Decidable equality for `Except`, used to evaluate embedded fallible
code on concrete inputs. -/
instance exceptDecidableEq {ε α : Type} [DecidableEq ε] [DecidableEq α] :
    DecidableEq (Except ε α) := fun a b =>
  match a, b with
  | .error e1, .error e2 =>
    if h : e1 = e2 then isTrue (by rw [h])
    else isFalse (fun hh => h (by injection hh))
  | .error _, .ok _ => isFalse (fun hh => Except.noConfusion hh)
  | .ok _, .error _ => isFalse (fun hh => Except.noConfusion hh)
  | .ok a1, .ok a2 =>
    if h : a1 = a2 then isTrue (by rw [h])
    else isFalse (fun hh => h (by injection hh))

/-! ## core/risk_management.py : KellyCriterion -/

/-- `KellyCriterion.__init__`: holds the conservative scaling factor
(default 0.25). -/
structure KellyCriterion where
  conservative_factor : ℚ
  deriving DecidableEq

/-- `KellyCriterion.calculate_kelly_fraction` (risk_management.py:53-70).
Guard: win probability outside (0,1) returns 0.  Otherwise computes
`(b*p - q)/b` with `b = odds - 1`; in Python a division by `b = 0.0`
raises `ZeroDivisionError`, modelled as `.error ()`.  The result is
clamped below at 0 after scaling by the conservative factor. -/
def calculate_kelly_fraction (kc : KellyCriterion) (win_probability odds : ℚ) :
    Except Unit ℚ :=
  if win_probability ≤ 0 ∨ 1 ≤ win_probability then
    .ok 0
  else
    let b := odds - 1
    if b = 0 then
      .error ()
    else
      let p := win_probability
      let q := 1 - p
      let kelly_fraction := (b * p - q) / b
      .ok (max 0 (kelly_fraction * kc.conservative_factor))

/-- `KellyCriterion.calculate_bet_size` (risk_management.py:72-78):
`min(bankroll*fraction, bankroll*max_bet_pct)`. -/
def kelly_calculate_bet_size (bankroll kelly_fraction max_bet_pct : ℚ) : ℚ :=
  min (bankroll * kelly_fraction) (bankroll * max_bet_pct)

/-! ## core/risk_management.py : VolatilityAnalyzer

`calculate_volatility` returns `np.std(history)` (population standard
deviation) once at least 10 results are recorded, else the default 0.1.
`get_volatility_adjustment` only compares that value against 0.5, 1.0 and
2.0; since `std ≥ 0` and `std < c ↔ var < c²` for `c > 0`, the comparisons
are reproduced exactly over `ℚ` via the variance, avoiding the irrational
square root. -/

def listMean (l : List ℚ) : ℚ := l.sum / l.length

def listVariance (l : List ℚ) : ℚ :=
  ((l.map (fun x => (x - listMean l) ^ 2)).sum) / l.length

/-- `VolatilityAnalyzer.get_volatility_adjustment` (risk_management.py:103-115),
with the `calculate_volatility` default (history shorter than 10 gives
volatility 0.1, hence the lowest band). -/
def get_volatility_adjustment (hist : List ℚ) : ℚ :=
  if hist.length < 10 then 1.2
  else if listVariance hist < 1 / 4 then 1.2
  else if listVariance hist < 1 then 1
  else if listVariance hist < 4 then 0.8
  else 0.6

/-- `VolatilityAnalyzer.add_result` (risk_management.py:87-93): append and
trim the window to `window_size = 50`. -/
def vol_add_result (hist : List ℚ) (r : ℚ) : List ℚ :=
  let h := hist ++ [r]
  if 50 < h.length then h.tail else h

/-! ## core/risk_management.py : RiskManager -/

/-- State of a `RiskManager` instance together with its embedded
`BankrollState` and `VolatilityAnalyzer` (risk_management.py:130-173).
The wall-clock fields (`session_start_time`, `daily_start_time`) and the
static `limits` dictionary are omitted: no claim depends on them. -/
structure RiskManager where
  initial_bankroll : ℚ
  current_bankroll : ℚ
  base_unit : ℚ
  kelly : KellyCriterion
  vol_history : List ℚ
  max_drawdown : ℚ
  peak_balance : ℚ
  session_balance : ℚ
  current_streak : ℤ
  losing_streak : ℕ
  winning_streak : ℕ
  session_results : List ℚ
  daily_results : List ℚ
  session_active : Bool
  emergency_stop : Bool
  deriving DecidableEq

/-- `RiskManager.__init__` (risk_management.py:133-173). -/
def RiskManager.init (initial_bankroll : ℚ) (base_unit : ℚ) : RiskManager where
  initial_bankroll := initial_bankroll
  current_bankroll := initial_bankroll
  base_unit := base_unit
  kelly := ⟨0.25⟩
  vol_history := []
  max_drawdown := 0
  peak_balance := initial_bankroll
  session_balance := initial_bankroll
  current_streak := 0
  losing_streak := 0
  winning_streak := 0
  session_results := []
  daily_results := []
  session_active := false
  emergency_stop := false

/-- `RiskManager.start_session` (risk_management.py:175-182). -/
def RiskManager.start_session (rm : RiskManager) : RiskManager :=
  { rm with session_active := true, session_results := [],
            session_balance := rm.current_bankroll }

/-- `RiskManager.end_session` plus `_update_session_statistics`
(risk_management.py:184-192 and 358-366).  The daily reset depends on the
wall-clock date; it is exposed as the boolean `newDay`. -/
def RiskManager.end_session (rm : RiskManager) (newDay : Bool) : RiskManager :=
  let rm' := { rm with session_active := false,
                       session_balance := rm.current_bankroll }
  if newDay then { rm' with daily_results := [] } else rm'

/-- `RiskManager.calculate_bet_size` (risk_management.py:230-262).
An emergency stop or inactive session short-circuits to 0 before the Kelly
computation; otherwise the Kelly bet is scaled by the confidence and
volatility multipliers and clamped into `[base_unit, 5% of bankroll]`.
The `Except` propagates the `ZeroDivisionError` of
`calculate_kelly_fraction` when `odds = 1`. -/
def RiskManager.calculate_bet_size (rm : RiskManager) (win_probability : ℚ)
    (confidence_level : String) (odds : ℚ) : Except Unit ℚ :=
  if rm.emergency_stop || !rm.session_active then
    .ok 0
  else
    match calculate_kelly_fraction rm.kelly win_probability odds with
    | .error e => .error e
    | .ok kelly_fraction =>
      let kelly_bet := kelly_calculate_bet_size rm.current_bankroll kelly_fraction (5 / 100)
      let confidence_multiplier : ℚ :=
        if confidence_level = "HIGH" then 1
        else if confidence_level = "MEDIUM" then 7 / 10
        else if confidence_level = "LOW" then 2 / 5
        else 1 / 2
      let volatility_multiplier := get_volatility_adjustment rm.vol_history
      let final_bet := kelly_bet * confidence_multiplier * volatility_multiplier
      let max_bet := rm.current_bankroll * (5 / 100)
      let min_bet := rm.base_unit
      .ok (max min_bet (min final_bet max_bet))

/-- `record_bet_result`, step 1 (risk_management.py:267-273): add the
result to the bankroll and to the session, daily and volatility
histories. -/
def update_balances (rm : RiskManager) (result : ℚ) : RiskManager :=
  { rm with current_bankroll := rm.current_bankroll + result,
            session_results := rm.session_results ++ [result],
            daily_results := rm.daily_results ++ [result],
            vol_history := vol_add_result rm.vol_history result }

/-- `record_bet_result`, step 2 (risk_management.py:275-283): streak
counters; a result `> 0` is a win, anything else a loss. -/
def update_streaks (rm : RiskManager) (result : ℚ) : RiskManager :=
  if 0 < result then
    { rm with winning_streak := rm.winning_streak + 1, losing_streak := 0,
              current_streak := rm.current_streak + 1 }
  else
    { rm with losing_streak := rm.losing_streak + 1, winning_streak := 0,
              current_streak := rm.current_streak - 1 }

/-- `record_bet_result`, step 3 (risk_management.py:285-287): raise the
peak balance when exceeded. -/
def update_peak (rm : RiskManager) : RiskManager :=
  if rm.peak_balance < rm.current_bankroll then
    { rm with peak_balance := rm.current_bankroll }
  else rm

/-- `record_bet_result`, step 4a (risk_management.py:289-291): record a
new maximum drawdown. -/
def set_max_drawdown (rm : RiskManager) (current_drawdown : ℚ) : RiskManager :=
  if rm.max_drawdown < current_drawdown then
    { rm with max_drawdown := current_drawdown }
  else rm

/-- `record_bet_result`, step 4b (risk_management.py:297-300): the 20%
emergency-stop trigger, evaluated on the updated maximum drawdown. -/
def set_emergency (rm : RiskManager) : RiskManager :=
  if (1 / 5 : ℚ) < rm.max_drawdown then { rm with emergency_stop := true } else rm

/-- `record_bet_result`, step 4 (risk_management.py:289-300): the drawdown
ratio `(peak - balance)/peak` — a `ZeroDivisionError` when the peak is 0 —
then the max-drawdown update and the emergency-stop trigger. -/
def update_drawdown (rm : RiskManager) : Except Unit RiskManager :=
  if rm.peak_balance = 0 then
    .error ()
  else
    .ok (set_emergency (set_max_drawdown rm
      ((rm.peak_balance - rm.current_bankroll) / rm.peak_balance)))

/-- `RiskManager.record_bet_result` (risk_management.py:264-302).
`bet_amount` and `outcome` are accepted and ignored, exactly as in the
source, where neither is read. -/
def RiskManager.record_bet_result (rm : RiskManager) (bet_amount result : ℚ)
    (outcome : String) : Except Unit RiskManager :=
  let _ := bet_amount
  let _ := outcome
  update_drawdown (update_peak (update_streaks (update_balances rm result) result))

/-- The operations a session performs on a `RiskManager` after
construction (reading `get_risk_assessment` and the pure
`calculate_bet_size` do not mutate state). -/
inductive RMOp where
  | record (bet_amount result : ℚ) (outcome : String)
  | startSession
  | endSession (newDay : Bool)

/-- Apply one operation. -/
def RMOp.apply (rm : RiskManager) : RMOp → Except Unit RiskManager
  | .record b r o => rm.record_bet_result b r o
  | .startSession => .ok rm.start_session
  | .endSession d => .ok (rm.end_session d)

/-- Run a sequence of operations, stopping at the first Python error. -/
def runOps (rm : RiskManager) : List RMOp → Except Unit RiskManager
  | [] => .ok rm
  | op :: ops =>
    match RMOp.apply rm op with
    | .ok rm' => runOps rm' ops
    | .error e => .error e

/-- Record `n` consecutive losing results of fixed size `s`
(each call is `record_bet_result(s, -s, outcome)`). -/
def recordLosses (rm : RiskManager) (s : ℚ) : ℕ → Except Unit RiskManager
  | 0 => .ok rm
  | n + 1 =>
    match rm.record_bet_result s (-s) "LOSS" with
    | .ok rm' => recordLosses rm' s n
    | .error e => .error e

/-- A manager whose emergency stop has fired, used to instantiate the C1
theorem on concrete data. -/
def stoppedExample : RiskManager :=
  { RiskManager.init 100 10 with emergency_stop := true }

/-- A concrete operation sequence: a session restart followed by a
session end. -/
def stoppedExampleOps : List RMOp :=
  [.startSession, .endSession true]

/-- A freshly started session whose bankroll (5) is below the base betting
unit (10): the concrete state on which the C2 invariant fails. -/
def c2_state : RiskManager := (RiskManager.init 5 10).start_session

/-! ## core/signal_generator.py : probability fusion and confidence -/

/-- The three baccarat outcomes, in the insertion order of the Python
dictionaries (`B`, `P`, `T`). -/
inductive Outcome where
  | B
  | P
  | T
  deriving DecidableEq

/-- A mapping of the three outcomes to values, the shape of every
probability dictionary in the source. -/
structure Dist3 where
  b : ℚ
  p : ℚ
  t : ℚ
  deriving DecidableEq

def Dist3.sum (d : Dist3) : ℚ := d.b + d.p + d.t

def Dist3.get (d : Dist3) : Outcome → ℚ
  | .B => d.b
  | .P => d.p
  | .T => d.t

/-- `SignalGenerator.base_probabilities` (signal_generator.py:343-346),
also the Monte Carlo and Bayesian priors (monte_carlo.py:26-30, 308-313). -/
def base_probabilities : Dist3 := ⟨0.4584, 0.4461, 0.0955⟩

/-- `_combine_predictions`, accumulation and renormalization
(signal_generator.py:227-254).  The neural distribution contributes only
when the `probabilities` key is present; a missing Monte Carlo
`probability_adjustments` key falls back to `base_probabilities`; weights
are 0.4 / 0.35 / 0.25. -/
def fuse (neural mc : Option Dist3) (bayes : Dist3) : Dist3 :=
  let n : Dist3 :=
    match neural with
    | some d => ⟨d.b * 0.4, d.p * 0.4, d.t * 0.4⟩
    | none => ⟨0, 0, 0⟩
  let m : Dist3 := mc.getD base_probabilities
  ⟨n.b + m.b * 0.35 + bayes.b * 0.25,
   n.p + m.p * 0.35 + bayes.p * 0.25,
   n.t + m.t * 0.35 + bayes.t * 0.25⟩

/-- `_combine_predictions`, normalization step (signal_generator.py:251-254):
divide by the total only when it is positive. -/
def normalizeFused (d : Dist3) : Dist3 :=
  if 0 < d.sum then ⟨d.b / d.sum, d.p / d.sum, d.t / d.sum⟩ else d

/-- `recommended_bet = max(final_probs, key=final_probs.get)`
(signal_generator.py:257): Python's `max` keeps the first maximal key in
the iteration order `B`, `P`, `T`, replacing only on strictly greater
values. -/
def recommended_bet (d : Dist3) : Outcome :=
  if d.b < d.p then (if d.p < d.t then .T else .P)
  else (if d.b < d.t then .T else .B)

/-- signal_generator.py:263 reads the name `pattern_analysis`, which is
not defined in the scope of `_combine_predictions` (it is neither a
parameter nor a module global); Python raises `NameError` there. -/
def pattern_analysis_reference : Except Unit ℚ := .error ()

/-- `SignalGenerator._combine_predictions` (signal_generator.py:223-271):
computes the fused, renormalized distribution and its argmax, then crashes
with `NameError` while building the `reasoning` dictionary, so the call
never returns. -/
def combine_predictions (neural mc : Option Dist3) (bayes : Dist3) :
    Except Unit (Outcome × Dist3) :=
  let final := normalizeFused (fuse neural mc bayes)
  let r := recommended_bet final
  match pattern_analysis_reference with
  | .error e => .error e
  | .ok _ => .ok (r, final)

/-- A probability distribution over the three outcomes: nonnegative
components summing to 1. -/
def isProbDist (d : Dist3) : Prop := 0 ≤ d.b ∧ 0 ≤ d.p ∧ 0 ≤ d.t ∧ d.sum = 1

/-- Python `int()` truncation toward zero, on exact rationals. -/
def pyInt (q : ℚ) : ℤ := if 0 ≤ q then ⌊q⌋ else -⌊-q⌋

/-- `SignalGenerator._calculate_confidence`, score part
(signal_generator.py:276-291): the statistical-edge factor is
`min(1.0, (max_prob - 0.5) * 4)` — with no clamping below at 0 — and the
weights are 0.4 / 0.2 / 0.2 / 0.2.  The source hardcodes
`model_agreement = 0.8`; here it is a parameter. -/
def confidence_score (max_prob pattern_strength : ℚ) (history_len : ℕ)
    (model_agreement : ℚ) : ℚ :=
  0.4 * min 1 ((max_prob - 0.5) * 4) + 0.2 * pattern_strength +
    0.2 * min 1 ((history_len : ℚ) / 100) + 0.2 * model_agreement

/-- Modelled from the claim's words, for comparison with
`confidence_score`: the edge factor is `clamp(4·(maxProb − 0.5), 0, 1)`,
clamped at both ends. -/
def confidence_score_spec (max_prob pattern_strength : ℚ) (history_len : ℕ)
    (model_agreement : ℚ) : ℚ :=
  0.4 * min 1 (max 0 ((max_prob - 0.5) * 4)) + 0.2 * pattern_strength +
    0.2 * min 1 ((history_len : ℚ) / 100) + 0.2 * model_agreement

/-- `ConfidenceLevel` (signal_generator.py:20-24). -/
inductive ConfidenceLevel where
  | HIGH
  | MEDIUM
  | LOW
  deriving DecidableEq

/-- `_calculate_confidence`, tier part (signal_generator.py:293-299), with
the thresholds `HIGH = 0.90`, `MEDIUM = 0.70` (signal_generator.py:69-73). -/
def calculate_confidence_level (score : ℚ) : ConfidenceLevel :=
  if 0.9 ≤ score then .HIGH
  else if 0.7 ≤ score then .MEDIUM
  else .LOW

/-- `SignalGenerator._determine_bet_size` (signal_generator.py:303-316):
LOW bets 0; MEDIUM scales linearly over `[2,4]`; HIGH over `[5,7]`;
Python's `int()` truncates. -/
def determine_bet_size (level : ConfidenceLevel) (score : ℚ) : ℤ :=
  match level with
  | .LOW => 0
  | .MEDIUM => pyInt (2 + (score - 0.7) / 0.2 * (4 - 2))
  | .HIGH => pyInt (5 + (score - 0.9) / 0.08 * (7 - 5))

/-! ## core/statistical_validation.py : chi-square uniformity test -/

/-- The observed counts of `chi_square_uniformity`
(statistical_validation.py:18-22): occurrences of the strings `Dragon`,
`Tiger` and `Tie`. -/
def observed_counts (history : List String) : ℕ × ℕ × ℕ :=
  (history.count "Dragon", history.count "Tiger", history.count "Tie")

/-- The theoretical expected counts of `chi_square_uniformity`
(statistical_validation.py:29-33): `len * 0.446`, `len * 0.446`,
`len * 0.108`. -/
def theoretical_expected (n : ℕ) : ℚ × ℚ × ℚ :=
  ((n : ℚ) * 0.446, (n : ℚ) * 0.446, (n : ℚ) * 0.108)

/-- Modelled from the claim's words, for comparison: expected counts under
the theoretical baccarat distribution Banker ≈ 0.4584, Player ≈ 0.4461,
Tie ≈ 0.0955. -/
def theoretical_expected_spec (n : ℕ) : ℚ × ℚ × ℚ :=
  ((n : ℚ) * 0.4584, (n : ℚ) * 0.4461, (n : ℚ) * 0.0955)

/-- The chi-square statistic `Σ (obs − exp)² / exp` computed by
`scipy.stats.chisquare` on three categories. -/
def chi_stat (observed : ℕ × ℕ × ℕ) (expected : ℚ × ℚ × ℚ) : ℚ :=
  ((observed.1 : ℚ) - expected.1) ^ 2 / expected.1 +
    ((observed.2.1 : ℚ) - expected.2.1) ^ 2 / expected.2.1 +
    ((observed.2.2 : ℚ) - expected.2.2) ^ 2 / expected.2.2

/-- `StatisticalValidator.chi_square_uniformity`
(statistical_validation.py:10-37).  The scipy p-value is an analytic
function of the statistic (chi-square survival function, df = 2); it is
abstracted as the parameter `pvalue`, which every theorem below holds for
uniformly.  The uniform-distribution test on lines 24-26 is computed and
discarded by the source; only the theoretical-distribution test is
returned. -/
def chi_square_uniformity (pvalue : ℚ → ℚ) (history : List String) :
    ℚ × ℚ × Bool :=
  if history.length < 30 then (0, 1, false)
  else
    let chi2 := chi_stat (observed_counts history) (theoretical_expected history.length)
    let p := pvalue chi2
    (chi2, p, decide ((1 : ℚ) / 20 < p))

/-- Modelled from the claim's words, for comparison: the same test shape
against Banker/Player/Tie counts and the claimed baccarat distribution. -/
def chi_square_uniformity_spec (pvalue : ℚ → ℚ) (history : List String) :
    ℚ × ℚ × Bool :=
  if history.length < 30 then (0, 1, false)
  else
    let observed := (history.count "Banker", history.count "Player", history.count "Tie")
    let chi2 := chi_stat observed (theoretical_expected_spec history.length)
    let p := pvalue chi2
    (chi2, p, decide ((1 : ℚ) / 20 < p))

/-- A dummy p-value function used to instantiate the parametric model on
concrete inputs. -/
def pv_half : ℚ → ℚ := fun _ => 1 / 2

/-- A concrete 30-entry history: 15 Dragon, 12 Tiger, 3 Tie. -/
def c7_history : List String :=
  List.replicate 15 "Dragon" ++ List.replicate 12 "Tiger" ++ List.replicate 3 "Tie"

/-! ## core/monte_carlo.py : single-hand simulation and batches -/

/-- The winning side of a simulated hand. -/
inductive Winner where
  | B
  | P
  | T
  deriving DecidableEq

/-- The dictionary returned by `_simulate_single_hand` (the dealt-cards
lists are omitted; no claim reads them). -/
structure HandResult where
  winner : Winner
  banker_score : ℕ
  player_score : ℕ
  deriving DecidableEq

/-- `MonteCarloEngine._calculate_baccarat_score` (monte_carlo.py:196-199):
point total mod 10. -/
def calculate_baccarat_score (cards : List ℕ) : ℕ := cards.sum % 10

/-- `MonteCarloEngine._should_banker_draw` (monte_carlo.py:201-214). -/
def should_banker_draw (banker_score player_third : ℕ) : Bool :=
  if banker_score ≤ 2 then true
  else if banker_score = 3 then player_third != 8
  else if banker_score = 4 then
    (match player_third with | 2 | 3 | 4 | 5 | 6 | 7 => true | _ => false)
  else if banker_score = 5 then
    (match player_third with | 4 | 5 | 6 | 7 => true | _ => false)
  else if banker_score = 6 then
    (match player_third with | 6 | 7 => true | _ => false)
  else false

/-- Winner determination (monte_carlo.py:181-186). -/
def hand_winner (banker_score player_score : ℕ) : Winner :=
  if player_score < banker_score then .B
  else if banker_score < player_score then .P
  else .T

/-- `MonteCarloEngine._simulate_single_hand` (monte_carlo.py:152-194).
The shoe is consumed from the front (`pop(0)`); a shoe with fewer than six
cards is left untouched and yields the default result
`winner='B', banker_score=0, player_score=0`.  With at least six cards at
most six pops occur, so the guard makes the function total. -/
def simulate_single_hand : List ℕ → HandResult × List ℕ
  | c1 :: c2 :: c3 :: c4 :: c5 :: c6 :: rest =>
    let banker_score := calculate_baccarat_score [c1, c2]
    let player_score := calculate_baccarat_score [c3, c4]
    if player_score ≤ 5 then
      let player_score2 := calculate_baccarat_score [c3, c4, c5]
      if should_banker_draw banker_score c5 then
        let banker_score2 := calculate_baccarat_score [c1, c2, c6]
        (⟨hand_winner banker_score2 player_score2, banker_score2, player_score2⟩, rest)
      else
        (⟨hand_winner banker_score player_score2, banker_score, player_score2⟩, c6 :: rest)
    else if banker_score ≤ 5 then
      let banker_score2 := calculate_baccarat_score [c1, c2, c5]
      (⟨hand_winner banker_score2 player_score, banker_score2, player_score⟩, c6 :: rest)
    else
      (⟨hand_winner banker_score player_score, banker_score, player_score⟩, c5 :: c6 :: rest)
  | shoe => (⟨.B, 0, 0⟩, shoe)

/-- The `for _ in range(num_hands)` loop of `_run_batch_simulations`
(monte_carlo.py:125-134): deal `n` hands from one shoe, threading the
remaining cards. -/
def run_hands (shoe : List ℕ) : ℕ → List HandResult × List ℕ
  | 0 => ([], shoe)
  | n + 1 =>
    let hr := simulate_single_hand shoe
    let rest := run_hands hr.2 n
    (hr.1 :: rest.1, rest.2)

/-- One entry of the list returned by `_run_batch_simulations`
(monte_carlo.py:118-123). -/
structure BatchSimResult where
  hands : List HandResult
  total_banker_wins : ℕ
  total_player_wins : ℕ
  total_ties : ℕ
  deriving DecidableEq

def count_winner (w : Winner) (hands : List HandResult) : ℕ :=
  (hands.filter (fun h => decide (h.winner = w))).length

/-- One simulation of `_run_batch_simulations`: the per-hand winner
counts (`'B'` increments the banker total, `'P'` the player total,
anything else the ties). -/
def run_batch_one (shoe : List ℕ) (num_hands : ℕ) : BatchSimResult :=
  let hs := (run_hands shoe num_hands).1
  ⟨hs, count_winner .B hs, count_winner .P hs, count_winner .T hs⟩

/-- `MonteCarloEngine._run_batch_simulations` (monte_carlo.py:110-138).
The source creates and shuffles one shoe per simulation; the model takes
the already-shuffled shoes as input, so the batch of size `batch_size` is
the list of shoes. -/
def run_batch_simulations (shoes : List (List ℕ)) (num_hands : ℕ) :
    List BatchSimResult :=
  shoes.map (fun s => run_batch_one s num_hands)

/-- `MonteCarloEngine._analyze_simulation_results` (monte_carlo.py:224-254):
raw frequencies, linear smoothing toward `base_probabilities` with factor
0.1, then renormalization. -/
def analyze_simulation_results (results : List BatchSimResult) : Dist3 :=
  let total_hands := (results.map (fun s => s.hands.length)).sum
  let total_banker := (results.map (fun s => s.total_banker_wins)).sum
  let total_player := (results.map (fun s => s.total_player_wins)).sum
  let total_ties := (results.map (fun s => s.total_ties)).sum
  if total_hands = 0 then base_probabilities
  else
    let adjusted : Dist3 :=
      ⟨(total_banker : ℚ) / total_hands, (total_player : ℚ) / total_hands,
       (total_ties : ℚ) / total_hands⟩
    let fp : Dist3 :=
      ⟨adjusted.b * (1 - 1 / 10) + base_probabilities.b * (1 / 10),
       adjusted.p * (1 - 1 / 10) + base_probabilities.p * (1 / 10),
       adjusted.t * (1 - 1 / 10) + base_probabilities.t * (1 / 10)⟩
    ⟨fp.b / fp.sum, fp.p / fp.sum, fp.t / fp.sum⟩

/-! ## core/neural_networks.py : PatternAnalyzer streak detection -/

/-- `PatternAnalyzer._calculate_streak_break_prob`
(neural_networks.py:308-311): `min(0.95, 1/length² + 0.1)`.  The source
only calls it with length ≥ 1 (the detection loop starts at 1). -/
def calculate_streak_break_prob (streak_length : ℕ) : ℚ :=
  min 0.95 (1 / ((streak_length : ℚ) ^ 2) + 0.1)

/-- The dictionary returned by `detect_streaks`; the short-input branch
returns no `streak_break_probability` key, hence the `Option`. -/
structure StreakResult where
  current_streak : ℕ
  streak_type : Option String
  streak_break_probability : Option ℚ
  deriving DecidableEq

/-- The backwards scan of `detect_streaks` (neural_networks.py:264-268):
walking from the next-to-last element toward the front, counting while
equal to the last element. -/
def count_run_back (x : String) : List String → ℕ
  | [] => 0
  | y :: ys => if y = x then 1 + count_run_back x ys else 0

/-- `PatternAnalyzer.detect_streaks` (neural_networks.py:256-274): inputs
shorter than 2 return streak 0 with no symbol and no break probability;
otherwise the length of the trailing run of the last element, that
element, and the break probability. -/
def detect_streaks (results : List String) : StreakResult :=
  if results.length < 2 then ⟨0, none, none⟩
  else
    match results.reverse with
    | [] => ⟨0, none, none⟩
    | x :: xs =>
      let len := 1 + count_run_back x xs
      ⟨len, some x, some (calculate_streak_break_prob len)⟩

/-- The trailing-run length of a list, written independently of the
source's loop (via `takeWhile` on the reversed list), to state what
`detect_streaks` is claimed to return. -/
def trailing_run_length (l : List String) : ℕ :=
  match l.reverse with
  | [] => 0
  | x :: xs => 1 + (xs.takeWhile (fun y => y == x)).length

/-! # Theorems -/

/-! ## Structural lemmas about the RiskManager transitions -/

theorem update_balances_fields (rm : RiskManager) (r : ℚ) :
    (update_balances rm r).current_bankroll = rm.current_bankroll + r ∧
    (update_balances rm r).peak_balance = rm.peak_balance ∧
    (update_balances rm r).base_unit = rm.base_unit ∧
    (update_balances rm r).max_drawdown = rm.max_drawdown ∧
    (update_balances rm r).emergency_stop = rm.emergency_stop :=
  ⟨rfl, rfl, rfl, rfl, rfl⟩

theorem update_streaks_fields (rm : RiskManager) (r : ℚ) :
    (update_streaks rm r).current_bankroll = rm.current_bankroll ∧
    (update_streaks rm r).peak_balance = rm.peak_balance ∧
    (update_streaks rm r).base_unit = rm.base_unit ∧
    (update_streaks rm r).max_drawdown = rm.max_drawdown ∧
    (update_streaks rm r).emergency_stop = rm.emergency_stop := by
  unfold update_streaks
  split <;> exact ⟨rfl, rfl, rfl, rfl, rfl⟩

theorem update_peak_fields (rm : RiskManager) :
    (update_peak rm).current_bankroll = rm.current_bankroll ∧
    rm.peak_balance ≤ (update_peak rm).peak_balance ∧
    (update_peak rm).base_unit = rm.base_unit ∧
    (update_peak rm).max_drawdown = rm.max_drawdown ∧
    (update_peak rm).emergency_stop = rm.emergency_stop := by
  unfold update_peak
  split
  · exact ⟨rfl, le_of_lt (by assumption), rfl, rfl, rfl⟩
  · exact ⟨rfl, le_refl _, rfl, rfl, rfl⟩

theorem set_max_drawdown_fields (rm : RiskManager) (dd : ℚ) :
    (set_max_drawdown rm dd).current_bankroll = rm.current_bankroll ∧
    (set_max_drawdown rm dd).peak_balance = rm.peak_balance ∧
    (set_max_drawdown rm dd).base_unit = rm.base_unit ∧
    (set_max_drawdown rm dd).emergency_stop = rm.emergency_stop := by
  unfold set_max_drawdown
  split <;> exact ⟨rfl, rfl, rfl, rfl⟩

theorem set_emergency_fields (rm : RiskManager) :
    (set_emergency rm).current_bankroll = rm.current_bankroll ∧
    (set_emergency rm).peak_balance = rm.peak_balance ∧
    (set_emergency rm).base_unit = rm.base_unit ∧
    (set_emergency rm).max_drawdown = rm.max_drawdown := by
  unfold set_emergency
  split <;> exact ⟨rfl, rfl, rfl, rfl⟩

theorem set_emergency_monotone (rm : RiskManager)
    (h : rm.emergency_stop = true) : (set_emergency rm).emergency_stop = true := by
  unfold set_emergency
  split
  · rfl
  · exact h

theorem set_emergency_triggered (rm : RiskManager)
    (h : 1 / 5 < (set_emergency rm).max_drawdown) :
    (set_emergency rm).emergency_stop = true := by
  rw [(set_emergency_fields rm).2.2.2] at h
  unfold set_emergency
  rw [if_pos h]

theorem update_drawdown_ok (rm rm' : RiskManager)
    (h : update_drawdown rm = .ok rm') :
    rm.peak_balance ≠ 0 ∧
    rm' = set_emergency (set_max_drawdown rm
      ((rm.peak_balance - rm.current_bankroll) / rm.peak_balance)) := by
  unfold update_drawdown at h
  split at h
  · exact absurd h (by simp)
  · refine ⟨by assumption, ?_⟩
    injection h with h2
    exact h2.symm

theorem update_drawdown_of_ne (rm : RiskManager) (hp : rm.peak_balance ≠ 0) :
    update_drawdown rm = .ok (set_emergency (set_max_drawdown rm
      ((rm.peak_balance - rm.current_bankroll) / rm.peak_balance))) := by
  unfold update_drawdown
  rw [if_neg hp]

/-- Inversion principle for a successful `record_bet_result`: the balance
moves by exactly the recorded result, the peak never decreases, the base
unit is unchanged, the emergency-stop flag is monotone, and a maximum
drawdown above 20% forces the flag on. -/
theorem record_ok_props (rm : RiskManager) (b r : ℚ) (o : String)
    (rm' : RiskManager) (h : rm.record_bet_result b r o = .ok rm') :
    rm'.current_bankroll = rm.current_bankroll + r ∧
    rm.peak_balance ≤ rm'.peak_balance ∧
    rm'.base_unit = rm.base_unit ∧
    (rm.emergency_stop = true → rm'.emergency_stop = true) ∧
    (1 / 5 < rm'.max_drawdown → rm'.emergency_stop = true) := by
  unfold RiskManager.record_bet_result at h
  obtain ⟨hne, heq⟩ := update_drawdown_ok _ _ h
  set s1 := update_balances rm r with hs1
  set s2 := update_streaks s1 r with hs2
  set s3 := update_peak s2 with hs3
  have hb1 := update_balances_fields rm r
  have hb2 := update_streaks_fields s1 r
  have hb3 := update_peak_fields s2
  have hb4 := set_max_drawdown_fields s3
      ((s3.peak_balance - s3.current_bankroll) / s3.peak_balance)
  have hb5 := set_emergency_fields (set_max_drawdown s3
      ((s3.peak_balance - s3.current_bankroll) / s3.peak_balance))
  refine ⟨?_, ?_, ?_, ?_, ?_⟩
  · rw [heq, hb5.1, hb4.1, hb3.1, hb2.1, hb1.1]
  · rw [heq, hb5.2.1, hb4.2.1]
    calc rm.peak_balance = s2.peak_balance := by rw [hb2.2.1, hb1.2.1]
    _ ≤ s3.peak_balance := hb3.2.1
  · rw [heq, hb5.2.2.1, hb4.2.2.1, hb3.2.2.1, hb2.2.2.1, hb1.2.2.1]
  · intro hstop
    rw [heq]
    apply set_emergency_monotone
    rw [hb4.2.2.2, hb3.2.2.2.2, hb2.2.2.2.2, hb1.2.2.2.2]
    exact hstop
  · intro hdd
    rw [heq] at hdd ⊢
    exact set_emergency_triggered _ hdd

/-- A `record_bet_result` call from a state with positive peak balance
never raises, and the peak stays positive. -/
theorem record_succeeds (rm : RiskManager) (b r : ℚ) (o : String)
    (hp : 0 < rm.peak_balance) :
    ∃ rm', rm.record_bet_result b r o = .ok rm' ∧ 0 < rm'.peak_balance := by
  set s1 := update_balances rm r with hs1
  set s2 := update_streaks s1 r with hs2
  set s3 := update_peak s2 with hs3
  have hpk : 0 < s3.peak_balance := by
    have h12 : s2.peak_balance = rm.peak_balance := by
      rw [(update_streaks_fields s1 r).2.1, (update_balances_fields rm r).2.1]
    calc (0 : ℚ) < rm.peak_balance := hp
    _ = s2.peak_balance := h12.symm
    _ ≤ s3.peak_balance := (update_peak_fields s2).2.1
  have hne : s3.peak_balance ≠ 0 := ne_of_gt hpk
  refine ⟨_, update_drawdown_of_ne s3 hne, ?_⟩
  have h4 := (set_max_drawdown_fields s3
      ((s3.peak_balance - s3.current_bankroll) / s3.peak_balance)).2.1
  have h5 := (set_emergency_fields (set_max_drawdown s3
      ((s3.peak_balance - s3.current_bankroll) / s3.peak_balance))).2.1
  rw [h5, h4]
  exact hpk

/-! ## Claim C1 -/

/-- Claim C1: once the drawdown crosses the 20% emergency threshold during
`record_bet_result`, the stop flag is set, and from any stopped state every
sequence of recorded results (and session starts/ends) leaves the flag set
while every call to `calculate_bet_size` returns 0; no operation other
than constructing a fresh manager clears the flag. -/
theorem C1_emergency_stop_monotonic :
    (∀ rm b r o rm', RiskManager.record_bet_result rm b r o = .ok rm' →
      (rm.emergency_stop = true → rm'.emergency_stop = true) ∧
      (1 / 5 < rm'.max_drawdown → rm'.emergency_stop = true)) ∧
    (∀ rm ops rm', rm.emergency_stop = true → runOps rm ops = .ok rm' →
      rm'.emergency_stop = true ∧
      ∀ p c od, rm'.calculate_bet_size p c od = .ok 0) := by
  have hstep : ∀ rm op rm', RMOp.apply rm op = .ok rm' →
      rm.emergency_stop = true → rm'.emergency_stop = true := by
    intro rm op rm' happ hstop
    cases op with
    | record b r o => exact ((record_ok_props rm b r o rm' happ).2.2.2.1) hstop
    | startSession =>
      injection happ with h2
      rw [← h2]
      exact hstop
    | endSession d =>
      injection happ with h2
      rw [← h2]
      unfold RiskManager.end_session
      split
      · exact hstop
      · exact hstop
  have hrun : ∀ ops rm rm', rm.emergency_stop = true → runOps rm ops = .ok rm' →
      rm'.emergency_stop = true := by
    intro ops
    induction ops with
    | nil =>
      intro rm rm' hstop hr
      injection hr with h2
      rw [← h2]
      exact hstop
    | cons op rest ih =>
      intro rm rm' hstop hr
      unfold runOps at hr
      cases happ : RMOp.apply rm op with
      | error e => rw [happ] at hr; exact absurd hr (by simp)
      | ok rmMid =>
        rw [happ] at hr
        exact ih rmMid rm' (hstep rm op rmMid happ hstop) hr
  refine ⟨?_, ?_⟩
  · intro rm b r o rm' h
    have hp := record_ok_props rm b r o rm' h
    exact ⟨hp.2.2.2.1, hp.2.2.2.2⟩
  · intro rm ops rm' hstop hr
    have hstop' := hrun ops rm rm' hstop hr
    refine ⟨hstop', ?_⟩
    intro p c od
    unfold RiskManager.calculate_bet_size
    rw [hstop']
    simp

/-- Witness for C1: a concretely stopped manager keeps the flag through a
concrete loss, and through a session restart and end, after which the
sized bet is 0. -/
theorem C1_emergency_stop_monotonic_witness :
    stoppedExample.emergency_stop = true ∧
    (∃ rm', stoppedExample.record_bet_result 10 (-10) "P" = .ok rm' ∧
      rm'.emergency_stop = true) ∧
    (∃ rm', runOps stoppedExample stoppedExampleOps = .ok rm' ∧
      rm'.emergency_stop = true ∧
      rm'.calculate_bet_size (6 / 10) "HIGH" 2 = .ok 0) := by
  have hpeak : (0 : ℚ) < stoppedExample.peak_balance := by
    norm_num [stoppedExample, RiskManager.init]
  obtain ⟨rmA, hA, _⟩ := record_succeeds stoppedExample 10 (-10) "P" hpeak
  have hrun : runOps stoppedExample stoppedExampleOps =
      .ok ((stoppedExample.start_session).end_session true) := rfl
  have h2 := C1_emergency_stop_monotonic.2 stoppedExample stoppedExampleOps
    ((stoppedExample.start_session).end_session true) rfl hrun
  refine ⟨rfl, ⟨rmA, hA, ?_⟩, ⟨_, hrun, h2.1, h2.2 (6 / 10) "HIGH" 2⟩⟩
  exact (C1_emergency_stop_monotonic.1 stoppedExample 10 (-10) "P" rmA hA).1 rfl

/-! ## Claim C2 -/

/-- Counterexample to claim C2 as stated: with an initial bankroll of 5
and base unit 10, the first sized bet is 10 — the `base_unit` floor of
`calculate_bet_size` is not capped to the available balance — and
committing its loss drives the balance to −5 < 0. -/
theorem C2_balance_negative_counterexample :
    c2_state.calculate_bet_size (6 / 10) "HIGH" 2 = .ok 10 ∧
    (c2_state.record_bet_result 10 (-10) "loss").map
      RiskManager.current_bankroll = .ok (-5) ∧
    ((-5 : ℚ) < 0) := by
  refine ⟨?_, ?_, by norm_num⟩
  · norm_num [c2_state, RiskManager.init, RiskManager.start_session,
      RiskManager.calculate_bet_size, calculate_kelly_fraction,
      kelly_calculate_bet_size, get_volatility_adjustment,
      min_def, max_def]
  · norm_num [c2_state, RiskManager.init, RiskManager.start_session,
      RiskManager.record_bet_result, update_balances, update_streaks,
      update_peak, set_max_drawdown, set_emergency, update_drawdown,
      vol_add_result, Except.map]

/-- Claim C2, amended: the emitted bet size is capped at
`max(base_unit, 5% of balance)`, not at the balance itself, so the balance
can go negative (see the counterexample); however, whenever the balance
before the bet is at least the base unit, the emitted bet size is at most
the balance and committing that bet as a loss leaves the balance
non-negative. -/
theorem C2_balance_nonnegative_amended (rm : RiskManager) (p : ℚ)
    (c : String) (od bet : ℚ) (hbu : 0 < rm.base_unit)
    (hbal : rm.base_unit ≤ rm.current_bankroll)
    (hcalc : rm.calculate_bet_size p c od = .ok bet) :
    bet ≤ rm.current_bankroll ∧
    ∀ b o rm', rm.record_bet_result b (-bet) o = .ok rm' →
      0 ≤ rm'.current_bankroll := by
  have hbet : bet ≤ rm.current_bankroll := by
    unfold RiskManager.calculate_bet_size at hcalc
    split at hcalc
    · injection hcalc with h2
      rw [← h2]
      linarith
    · cases hk : calculate_kelly_fraction rm.kelly p od with
      | error e =>
        rw [hk] at hcalc
        exact absurd hcalc (by simp)
      | ok kf =>
        rw [hk] at hcalc
        simp only [] at hcalc
        injection hcalc with h2
        rw [← h2]
        have h20 : rm.current_bankroll * (5 / 100) ≤ rm.current_bankroll := by
          nlinarith
        exact max_le hbal (le_trans (min_le_right _ _) h20)
  refine ⟨hbet, ?_⟩
  intro b o rm' hrec
  have hprops := record_ok_props rm b (-bet) o rm' hrec
  rw [hprops.1]
  linarith

/-- Witness for the amended C2: a fresh session with bankroll 100 and base
unit 10 sizes a bet of 10 ≤ 100, and recording its loss leaves balance
90 ≥ 0. -/
theorem C2_balance_nonnegative_amended_witness :
    ∃ bet, (RiskManager.init 100 10).start_session.calculate_bet_size
        (6 / 10) "HIGH" 2 = .ok bet ∧
      bet ≤ ((RiskManager.init 100 10).start_session).current_bankroll ∧
      ∀ rm', ((RiskManager.init 100 10).start_session).record_bet_result
          10 (-bet) "loss" = .ok rm' → 0 ≤ rm'.current_bankroll := by
  have hc : (RiskManager.init 100 10).start_session.calculate_bet_size
      (6 / 10) "HIGH" 2 = .ok 10 := by
    norm_num [RiskManager.init, RiskManager.start_session,
      RiskManager.calculate_bet_size, calculate_kelly_fraction,
      kelly_calculate_bet_size, get_volatility_adjustment,
      min_def, max_def]
  have h := C2_balance_nonnegative_amended ((RiskManager.init 100 10).start_session)
    (6 / 10) "HIGH" 2 10 (by norm_num [RiskManager.init, RiskManager.start_session])
    (by norm_num [RiskManager.init, RiskManager.start_session]) hc
  exact ⟨10, hc, h.1, fun rm' hrec => h.2 10 "loss" rm' hrec⟩

/-! ## Claim C6 -/

/-- Core induction for C6: from any state with positive peak balance,
recording `n` losses of size `s` succeeds and moves the balance by exactly
`-n*s`. -/
theorem recordLosses_balance (s : ℚ) :
    ∀ (n : ℕ) (rm : RiskManager), 0 < rm.peak_balance →
      ∃ rm', recordLosses rm s n = .ok rm' ∧
        rm'.current_bankroll = rm.current_bankroll - n * s := by
  intro n
  induction n with
  | zero =>
    intro rm hp
    refine ⟨rm, rfl, by push_cast; ring⟩
  | succ k ih =>
    intro rm hp
    obtain ⟨rmMid, hrec, hpk⟩ := record_succeeds rm s (-s) "LOSS" hp
    obtain ⟨rm', hrest, hbal⟩ := ih rmMid hpk
    refine ⟨rm', ?_, ?_⟩
    · unfold recordLosses
      rw [hrec]
      exact hrest
    · rw [hbal, (record_ok_props rm s (-s) "LOSS" rmMid hrec).1]
      push_cast
      ring

/-- Counterexample to claim C6 as stated ("for every initial balance B"):
from an initial balance of 0 the very first `record_bet_result` divides by
the zero peak balance and raises `ZeroDivisionError` instead of leaving
the balance at B − N·s = −1. -/
theorem C6_zero_balance_counterexample :
    recordLosses (RiskManager.init 0 10) 1 1 = .error () := by
  norm_num [recordLosses, RiskManager.init, RiskManager.record_bet_result,
    update_balances, update_streaks, update_peak, set_max_drawdown,
    set_emergency, update_drawdown, vol_add_result]

/-- Claim C6, amended: for every positive initial balance B, every count N
and every loss size s, recording N consecutive losses of size s leaves the
balance exactly B − N·s (from balance 0 the code raises
`ZeroDivisionError` instead, see the counterexample). -/
theorem C6_losses_exact_balance (B u s : ℚ) (n : ℕ) (hB : 0 < B) :
    ∃ rm', recordLosses (RiskManager.init B u) s n = .ok rm' ∧
      rm'.current_bankroll = B - n * s := by
  have hp : 0 < (RiskManager.init B u).peak_balance := hB
  obtain ⟨rm', hrun, hbal⟩ := recordLosses_balance s n (RiskManager.init B u) hp
  exact ⟨rm', hrun, hbal⟩

/-- Witness for C6: balance 100, three losses of 5 end at 85. -/
theorem C6_losses_exact_balance_witness :
    ∃ rm', recordLosses (RiskManager.init 100 10) 5 3 = .ok rm' ∧
      rm'.current_bankroll = 100 - (3 : ℕ) * 5 :=
  C6_losses_exact_balance 100 10 5 3 (by norm_num)

/-! ## Claims C3 and C10: the Kelly fraction -/

/-- Claim C3: the code, not the claim, is at fault here.  The claim (and
the spec) state that `calculate_kelly_fraction(0.5, 1.0)` returns 0, a
zero-edge input yielding a zero fraction rather than an error; but with
`odds = 1.0` the denominator `b = odds - 1` is zero and the Python source
raises `ZeroDivisionError` — on its own default arguments
(`calculate_bet_size` defaults `odds=1.0`, and
`get_bet_sizing_recommendation` hardcodes `1.0`).  This theorem evaluates
the embedded code at the failing input. -/
theorem C3_kelly_zero_edge_raises :
    calculate_kelly_fraction ⟨1 / 4⟩ (1 / 2) 1 = .error () := by
  unfold calculate_kelly_fraction
  norm_num

/-- Claim C10: `calculate_kelly_fraction` returns exactly 0 whenever the
win probability is ≤ 0 or ≥ 1, and for every win probability in (0,1) and
every odds > 1 it returns a value in `[0, conservative_factor]`: the raw
Kelly fraction is clamped below at 0 and the scaled fraction never exceeds
the conservative factor. -/
theorem C10_kelly_fraction_bounds (cf p odds : ℚ) (hcf : 0 ≤ cf) :
    ((p ≤ 0 ∨ 1 ≤ p) → calculate_kelly_fraction ⟨cf⟩ p odds = .ok 0) ∧
    (0 < p → p < 1 → 1 < odds →
      ∃ r, calculate_kelly_fraction ⟨cf⟩ p odds = .ok r ∧ 0 ≤ r ∧ r ≤ cf) := by
  constructor
  · intro h
    simp only [calculate_kelly_fraction, if_pos h]
  · intro hp0 hp1 hodds
    have hguard : ¬(p ≤ 0 ∨ 1 ≤ p) := by
      push_neg
      exact ⟨hp0, hp1⟩
    have hb : (0 : ℚ) < odds - 1 := by linarith
    have hbne : odds - 1 ≠ 0 := ne_of_gt hb
    refine ⟨max 0 (((odds - 1) * p - (1 - p)) / (odds - 1) * cf), ?_, ?_, ?_⟩
    · simp only [calculate_kelly_fraction, if_neg hguard, if_neg hbne]
    · exact le_max_left 0 _
    · have hkle : ((odds - 1) * p - (1 - p)) / (odds - 1) ≤ 1 := by
        rw [div_le_one hb]
        nlinarith
      have : ((odds - 1) * p - (1 - p)) / (odds - 1) * cf ≤ 1 * cf :=
        mul_le_mul_of_nonneg_right hkle hcf
      rw [one_mul] at this
      exact max_le hcf this

/-- Witness for C10 at a concrete input: conservative factor 1/4, win
probability 9/10, odds 2. -/
theorem C10_kelly_fraction_bounds_witness :
    ∃ r, calculate_kelly_fraction ⟨1 / 4⟩ (9 / 10) 2 = .ok r ∧ 0 ≤ r ∧ r ≤ 1 / 4 :=
  (C10_kelly_fraction_bounds (1 / 4) (9 / 10) 2 (by norm_num)).2
    (by norm_num) (by norm_num) (by norm_num)

/-! ## Claim C4 -/

/-- Python's `max(dict, key=dict.get)` keeps a key of maximal value. -/
theorem recommended_bet_is_argmax (d : Dist3) (o : Outcome) :
    d.get o ≤ d.get (recommended_bet d) := by
  unfold recommended_bet
  cases o <;> split_ifs <;> simp [Dist3.get] <;> linarith

theorem base_probabilities_isProbDist : isProbDist base_probabilities := by
  refine ⟨?_, ?_, ?_, ?_⟩ <;> norm_num [base_probabilities, Dist3.sum]

/-- Claim C4: the fused-distribution invariants hold for the distribution
the fusion stage computes — components nonnegative, exact sum 1 after
renormalization, recommendation an argmax — but the stage itself never
returns it: `_combine_predictions` raises `NameError` (the undefined name
`pattern_analysis` on signal_generator.py:263) on every call, so the
claim describes the intent and the code contains a slip. -/
theorem C4_fusion_invariants (neural mc : Option Dist3) (bayes : Dist3)
    (hn : ∀ d, neural = some d → isProbDist d)
    (hm : ∀ d, mc = some d → isProbDist d)
    (hb : isProbDist bayes) :
    combine_predictions neural mc bayes = .error () ∧
    (0 ≤ (normalizeFused (fuse neural mc bayes)).b ∧
     0 ≤ (normalizeFused (fuse neural mc bayes)).p ∧
     0 ≤ (normalizeFused (fuse neural mc bayes)).t) ∧
    (normalizeFused (fuse neural mc bayes)).sum = 1 ∧
    (∀ o, (normalizeFused (fuse neural mc bayes)).get o ≤
      (normalizeFused (fuse neural mc bayes)).get
        (recommended_bet (normalizeFused (fuse neural mc bayes)))) := by
  have hmd : isProbDist (mc.getD base_probabilities) := by
    cases mc with
    | none => exact base_probabilities_isProbDist
    | some d => exact hm d rfl
  obtain ⟨hmb, hmp, hmt, hms⟩ := hmd
  obtain ⟨hbb, hbp, hbt, hbs⟩ := hb
  unfold Dist3.sum at hms hbs
  have hfuse : 0 ≤ (fuse neural mc bayes).b ∧ 0 ≤ (fuse neural mc bayes).p ∧
      0 ≤ (fuse neural mc bayes).t ∧ 0 < (fuse neural mc bayes).sum := by
    cases neural with
    | none =>
      unfold fuse Dist3.sum
      simp only []
      refine ⟨by nlinarith, by nlinarith, by nlinarith, by nlinarith⟩
    | some nd =>
      obtain ⟨hnb, hnp, hnt, hns⟩ := hn nd rfl
      unfold Dist3.sum at hns
      unfold fuse Dist3.sum
      simp only []
      refine ⟨by nlinarith, by nlinarith, by nlinarith, by nlinarith⟩
  obtain ⟨hfb, hfp, hft, hfs⟩ := hfuse
  have hnorm : normalizeFused (fuse neural mc bayes) =
      ⟨(fuse neural mc bayes).b / (fuse neural mc bayes).sum,
       (fuse neural mc bayes).p / (fuse neural mc bayes).sum,
       (fuse neural mc bayes).t / (fuse neural mc bayes).sum⟩ := by
    unfold normalizeFused
    rw [if_pos hfs]
  refine ⟨rfl, ?_, ?_, ?_⟩
  · rw [hnorm]
    exact ⟨div_nonneg hfb (le_of_lt hfs), div_nonneg hfp (le_of_lt hfs),
      div_nonneg hft (le_of_lt hfs)⟩
  · rw [hnorm]
    unfold Dist3.sum
    rw [div_add_div_same, div_add_div_same]
    exact div_self (ne_of_gt hfs)
  · intro o
    exact recommended_bet_is_argmax _ o

/-- Witness for C4 at a concrete input: the house prior fed in as each of
the three component distributions. -/
theorem C4_fusion_invariants_witness :
    combine_predictions (some base_probabilities) none base_probabilities = .error () ∧
    (normalizeFused (fuse (some base_probabilities) none base_probabilities)).sum = 1 := by
  have h := C4_fusion_invariants (some base_probabilities) none base_probabilities
    (fun d hd => by injection hd with h2; rw [← h2]; exact base_probabilities_isProbDist)
    (fun d hd => by exact absurd hd (by simp))
    base_probabilities_isProbDist
  exact ⟨h.1, h.2.2.1⟩

/-! ## Claim C5 -/

/-- Counterexample to claim C5 as stated: at a fused maximum probability
of 2/5 (below 1/2) the code's edge factor `min(1, 4·(maxProb − 0.5))` is
the negative −2/5 rather than the claimed `clamp(·, 0, 1) = 0`, so with
pattern strength 0, empty history and model agreement 4/5 the code's
score is 0 while the claimed formula gives 4/25. -/
theorem C5_confidence_counterexample :
    confidence_score (2 / 5) 0 0 (4 / 5) = 0 ∧
    confidence_score_spec (2 / 5) 0 0 (4 / 5) = 4 / 25 ∧
    confidence_score (2 / 5) 0 0 (4 / 5) ≠ confidence_score_spec (2 / 5) 0 0 (4 / 5) := by
  refine ⟨?_, ?_, ?_⟩ <;>
    norm_num [confidence_score, confidence_score_spec, min_def, max_def]

/-- Claim C5, amended: the score is
`0.4·min(1, 4·(maxProb−0.5)) + 0.2·patternStrength +
0.2·min(1, historyLength/100) + 0.2·modelAgreement` — the edge term is not
clamped below at 0, so the claimed formula agrees exactly whenever
maxProb ≥ 1/2 (and differs below, see the counterexample); the tier is
HIGH for score ≥ 0.90, MEDIUM for 0.70 ≤ score < 0.90, else LOW; and the
LOW tier forces the emitted bet size to 0. -/
theorem C5_confidence_amended (mp ps : ℚ) (hl : ℕ) (ma : ℚ) :
    ((1 : ℚ) / 2 ≤ mp →
      confidence_score mp ps hl ma = confidence_score_spec mp ps hl ma) ∧
    (0.9 ≤ confidence_score mp ps hl ma →
      calculate_confidence_level (confidence_score mp ps hl ma) = .HIGH) ∧
    (0.7 ≤ confidence_score mp ps hl ma → confidence_score mp ps hl ma < 0.9 →
      calculate_confidence_level (confidence_score mp ps hl ma) = .MEDIUM) ∧
    (confidence_score mp ps hl ma < 0.7 →
      calculate_confidence_level (confidence_score mp ps hl ma) = .LOW) ∧
    determine_bet_size .LOW (confidence_score mp ps hl ma) = 0 := by
  refine ⟨?_, ?_, ?_, ?_, rfl⟩
  · intro h
    have hmax : max 0 ((mp - 0.5) * 4) = (mp - 0.5) * 4 :=
      max_eq_right (by nlinarith)
    unfold confidence_score confidence_score_spec
    rw [hmax]
  · intro h
    unfold calculate_confidence_level
    rw [if_pos h]
  · intro h1 h2
    unfold calculate_confidence_level
    rw [if_neg (not_le.mpr h2), if_pos h1]
  · intro h
    unfold calculate_confidence_level
    rw [if_neg (not_le.mpr (by linarith)), if_neg (not_le.mpr h)]

/-- Witness for the amended C5 at maxProb 3/5, pattern strength 1/2,
history length 50, model agreement 4/5 (score 0.52, tier LOW, bet 0). -/
theorem C5_confidence_amended_witness :
    confidence_score (3 / 5) (1 / 2) 50 (4 / 5) =
      confidence_score_spec (3 / 5) (1 / 2) 50 (4 / 5) ∧
    calculate_confidence_level (confidence_score (3 / 5) (1 / 2) 50 (4 / 5)) = .LOW ∧
    determine_bet_size .LOW (confidence_score (3 / 5) (1 / 2) 50 (4 / 5)) = 0 := by
  have h := C5_confidence_amended (3 / 5) (1 / 2) 50 (4 / 5)
  exact ⟨h.1 (by norm_num),
    h.2.2.2.1 (by norm_num [confidence_score, min_def]),
    h.2.2.2.2⟩

/-! ## Claim C7 -/

/-- Counterexample to claim C7 as stated: the function counts the strings
`Dragon`/`Tiger`/`Tie` against the distribution (0.446, 0.446, 0.108) —
the Dragon Tiger table — not Banker/Player/Tie against
(0.4584, 0.4461, 0.0955): the expected counts differ at length 1000, and
on a concrete 30-entry history the returned statistic differs from the
claimed one. -/
theorem C7_chi_square_counterexample :
    theoretical_expected 1000 ≠ theoretical_expected_spec 1000 ∧
    (chi_square_uniformity pv_half c7_history).1 ≠
      (chi_square_uniformity_spec pv_half c7_history).1 := by
  constructor
  · intro h
    have hb : ((1000 : ℕ) : ℚ) * 0.446 = ((1000 : ℕ) : ℚ) * 0.4584 :=
      congrArg Prod.fst h
    norm_num at hb
  · have hlen : c7_history.length = 30 := by decide
    have hobs : observed_counts c7_history = (15, 12, 3) := by decide
    have hB : c7_history.count "Banker" = 0 := by decide
    have hP : c7_history.count "Player" = 0 := by decide
    have hT : c7_history.count "Tie" = 3 := by decide
    unfold chi_square_uniformity chi_square_uniformity_spec
    rw [hlen]
    norm_num [hobs, hB, hP, hT, theoretical_expected, theoretical_expected_spec,
      chi_stat]

/-- Claim C7, amended: `chi_square_uniformity` compares the observed
counts of `Dragon`/`Tiger`/`Tie` against the theoretical Dragon Tiger
distribution (≈0.446, 0.446, 0.108); every history shorter than 30
entries yields the sentinel `(0.0, 1.0, False)` without an exception, and
that sentinel is distinguishable from every completed test result (whose
boolean field equals `p > 0.05`), for every p-value function. -/
theorem C7_chi_square_amended (pvalue : ℚ → ℚ) (h : List String) :
    (h.length < 30 → chi_square_uniformity pvalue h = (0, 1, false)) ∧
    (30 ≤ h.length → chi_square_uniformity pvalue h ≠ (0, 1, false)) ∧
    (30 ≤ h.length → (chi_square_uniformity pvalue h).1 =
      chi_stat (observed_counts h) (theoretical_expected h.length)) := by
  refine ⟨?_, ?_, ?_⟩
  · intro hlen
    unfold chi_square_uniformity
    rw [if_pos hlen]
  · intro hlen heq
    unfold chi_square_uniformity at heq
    rw [if_neg (not_lt.mpr hlen)] at heq
    simp only [Prod.mk.injEq] at heq
    obtain ⟨-, hp, hdec⟩ := heq
    rw [hp] at hdec
    norm_num at hdec
  · intro hlen
    unfold chi_square_uniformity
    rw [if_neg (not_lt.mpr hlen)]

/-- Witness for the amended C7: a 10-entry history returns the sentinel;
the concrete 30-entry history does not. -/
theorem C7_chi_square_amended_witness :
    chi_square_uniformity pv_half (List.replicate 10 "Dragon") = (0, 1, false) ∧
    chi_square_uniformity pv_half c7_history ≠ (0, 1, false) := by
  refine ⟨(C7_chi_square_amended pv_half (List.replicate 10 "Dragon")).1 (by simp),
    (C7_chi_square_amended pv_half c7_history).2.1 (by norm_num [c7_history])⟩

/-! ## Claim C8 -/

/-- Dealing `n` hands from a shoe always produces exactly `n` hand
results, whatever the shoe contents — degenerate shoes included. -/
theorem run_hands_length (n : ℕ) : ∀ shoe : List ℕ,
    ((run_hands shoe n).1).length = n := by
  induction n with
  | zero => intro shoe; rfl
  | succ k ih =>
    intro shoe
    unfold run_hands
    simp only [List.length_cons]
    rw [ih]

/-- Every hand result is counted in exactly one of the three winner
totals. -/
theorem count_winner_partition (hs : List HandResult) :
    count_winner .B hs + count_winner .P hs + count_winner .T hs = hs.length := by
  induction hs with
  | nil => rfl
  | cons hd tl ih =>
    unfold count_winner at ih ⊢
    cases hw : hd.winner <;>
      simp only [List.filter_cons, hw, decide_eq_true_eq, List.length_cons] <;>
      split <;> simp_all <;> omega

/-- Claim C8, amended: a shoe with fewer than six cards makes
`_simulate_single_hand` return the default result — winner `'B'`, scores
0 — without raising and without consuming cards, and every batch always
completes with exactly `num_hands` counted hands per simulation; but the
default result is counted as a Banker win, so degenerate hands do bias
the aggregated per-outcome frequencies (see the counterexample). -/
theorem C8_batch_robustness :
    (∀ shoe : List ℕ, shoe.length < 6 →
      simulate_single_hand shoe = (⟨.B, 0, 0⟩, shoe)) ∧
    (∀ (shoes : List (List ℕ)) (n : ℕ), ∀ br ∈ run_batch_simulations shoes n,
      br.hands.length = n ∧
      br.total_banker_wins + br.total_player_wins + br.total_ties = n) := by
  constructor
  · intro shoe h
    rcases shoe with _ | ⟨a, _ | ⟨b, _ | ⟨c, _ | ⟨d, _ | ⟨e, _ | ⟨f, rest⟩⟩⟩⟩⟩⟩
    · rfl
    · rfl
    · rfl
    · rfl
    · rfl
    · rfl
    · exfalso
      simp only [List.length_cons] at h
      omega
  · intro shoes n br hbr
    unfold run_batch_simulations at hbr
    rw [List.mem_map] at hbr
    obtain ⟨s, -, rfl⟩ := hbr
    unfold run_batch_one
    refine ⟨run_hands_length n s, ?_⟩
    rw [count_winner_partition]
    exact run_hands_length n s

/-- Counterexample to the "non-informative default" part of claim C8: a
batch over an empty shoe counts its default hand as a Banker win, pushing
the analyzed distribution to (0.94584, 0.04461, 0.00955) instead of
leaving the house prior untouched. -/
theorem C8_default_biases_counterexample :
    run_batch_simulations [[]] 1 = [⟨[⟨.B, 0, 0⟩], 1, 0, 0⟩] ∧
    (analyze_simulation_results (run_batch_simulations [[]] 1)).b = 0.94584 ∧
    analyze_simulation_results (run_batch_simulations [[]] 1) ≠ base_probabilities := by
  have h1 : run_batch_simulations [[]] 1 = [⟨[⟨.B, 0, 0⟩], 1, 0, 0⟩] := rfl
  have h2 : (analyze_simulation_results (run_batch_simulations [[]] 1)).b = 0.94584 := by
    rw [h1]
    norm_num [analyze_simulation_results, Dist3.sum, base_probabilities]
  refine ⟨h1, h2, ?_⟩
  intro heq
  have hb := congrArg Dist3.b heq
  rw [h2] at hb
  norm_num [base_probabilities] at hb

/-- Witness for the amended C8: the empty shoe yields the default hand,
and a two-card shoe (still < 6) completes a 2-hand batch with 2 counted
hands. -/
theorem C8_batch_robustness_witness :
    simulate_single_hand ([] : List ℕ) = (⟨.B, 0, 0⟩, []) ∧
    (run_batch_one [2, 3] 2).hands.length = 2 ∧
    (run_batch_one [2, 3] 2).total_banker_wins +
      (run_batch_one [2, 3] 2).total_player_wins +
      (run_batch_one [2, 3] 2).total_ties = 2 := by
  have h1 := C8_batch_robustness.1 [] (by norm_num)
  have h2 := C8_batch_robustness.2 [[2, 3]] 2 (run_batch_one [2, 3] 2)
    (by rw [show run_batch_simulations [[2, 3]] 2 = [run_batch_one [2, 3] 2] from rfl]
        exact List.mem_singleton.mpr rfl)
  exact ⟨h1, h2.1, h2.2⟩

/-! ## Claim C9 -/

/-- The source's backwards counting loop computes the `takeWhile` length
on the reversed tail. -/
theorem count_run_back_eq_takeWhile (x : String) (l : List String) :
    count_run_back x l = (l.takeWhile (fun y => y == x)).length := by
  induction l with
  | nil => rfl
  | cons y ys ih =>
    unfold count_run_back
    by_cases h : y = x
    · have hbeq : (y == x) = true := by simp [h]
      rw [if_pos h, List.takeWhile_cons, hbeq]
      simp [ih, Nat.add_comm]
    · have hbeq : (y == x) = false := by simp [h]
      rw [if_neg h, List.takeWhile_cons, hbeq]
      rfl

/-- Counterexample to claim C9 as stated ("for every non-empty outcome
list"): on the singleton `['B']` the trailing run has length 1 and symbol
`'B'`, but `detect_streaks` returns streak 0 with no symbol and no break
probability. -/
theorem C9_singleton_counterexample :
    detect_streaks ["B"] = ⟨0, none, none⟩ ∧
    trailing_run_length ["B"] = 1 ∧
    (detect_streaks ["B"]).current_streak ≠ trailing_run_length ["B"] :=
  ⟨rfl, rfl, by decide⟩

/-- Claim C9, amended: for every outcome list of length ≥ 2,
`detect_streaks` returns the length of the trailing run of identical
outcomes, its symbol (the last element), and the break probability
`min(0.95, 1/length² + 0.1)`; lists shorter than 2 instead return streak
0 with no symbol and no probability (see the counterexample). -/
theorem C9_streaks_amended (l : List String) (h : 2 ≤ l.length) :
    detect_streaks l = ⟨trailing_run_length l, l.getLast?,
      some (calculate_streak_break_prob (trailing_run_length l))⟩ := by
  unfold detect_streaks trailing_run_length
  rw [if_neg (by omega : ¬l.length < 2)]
  cases hrev : l.reverse with
  | nil =>
    exfalso
    have hnil : l = [] := by simpa using congrArg List.reverse hrev
    rw [hnil] at h
    simp at h
  | cons x xs =>
    have hlast : l.getLast? = some x := by
      rw [← List.head?_reverse, hrev]
      rfl
    simp only [hlast, count_run_back_eq_takeWhile]

/-- Witness for the amended C9 at the claim's own example:
`detect_streaks(['B','B','B','B'])` gives streak 4, symbol `'B'`, break
probability `min(0.95, 1/16 + 0.1) = 13/80`. -/
theorem C9_streaks_amended_witness :
    detect_streaks ["B", "B", "B", "B"] = ⟨4, some "B", some (13 / 80)⟩ := by
  have h := C9_streaks_amended ["B", "B", "B", "B"] (by norm_num)
  have ht : trailing_run_length ["B", "B", "B", "B"] = 4 := rfl
  have hl : (["B", "B", "B", "B"] : List String).getLast? = some "B" := rfl
  rw [h, ht, hl]
  norm_num [calculate_streak_break_prob, min_def]
